import Mathlib

/-!
Verification development for the openclaw workspace repository.

Strings are modelled as lists of Unicode code points (`List Char`).  The
JavaScript source of `src/plugins/feishu-local/src/reply-dispatcher.ts` is
embedded function by function; the regular expressions in that file are
embedded as explicit scanners over `List Char`.
-/

namespace OC

abbrev Str := List Char

/-- The character class of JavaScript `\s` (also the set removed by
`String.prototype.trim`). -/
def isJsWs (c : Char) : Bool :=
  c == ' ' || c == '\t' || c == '\n' || c == '\r' ||
  c.val == 11 || c.val == 12 || c.val == 0xa0 || c.val == 0x1680 ||
  (0x2000 ≤ c.val && c.val ≤ 0x200a) || c.val == 0x2028 || c.val == 0x2029 ||
  c.val == 0x202f || c.val == 0x205f || c.val == 0x3000 || c.val == 0xfeff

/-- JS `String.prototype.trimStart`. -/
def jsTrimStart (s : Str) : Str := s.dropWhile isJsWs

/-- JS `String.prototype.trimEnd`. -/
def jsTrimEnd (s : Str) : Str := (s.reverse.dropWhile isJsWs).reverse

/-- JS `String.prototype.trim`. -/
def jsTrim (s : Str) : Str := jsTrimEnd (jsTrimStart s)

/-- JS `String.prototype.toLowerCase`, restricted to the ASCII letters that
occur in the thinking-tag spellings. -/
def jsLower (s : Str) : Str := s.map Char.toLower

/-- JS `String.prototype.length` counts UTF-16 code units: code points above
U+FFFF (such as the 🧠 emoji) count twice. -/
def jsLength (s : Str) : Nat :=
  s.foldr (fun c n => (if 0x10000 ≤ c.val then 2 else 1) + n) 0

/-- JS `hay.includes(needle)`. -/
def strIncludes (hay needle : Str) : Bool :=
  match hay with
  | [] => needle.isEmpty
  | _ :: t => needle.isPrefixOf hay || strIncludes t needle

/-- JS `text.slice(a, b)` for `0 ≤ a ≤ b` (code-point positions). -/
def strSlice (s : Str) (a b : Nat) : Str := (s.drop a).take (b - a)

-- ===========================================================================
-- reply-dispatcher.ts: reasoning text processing
-- ===========================================================================

def REASONING_MESSAGE_PREFIX : Str := "🧠 思考过程\n".data

def REASONING_TAG_PREFIXES : List Str :=
  ["<think".data, "<thinking".data, "<thought".data, "<antthinking".data]

/-- Length of whitespace run at the head of a list, plus the remainder. -/
def spanWs : Str → Nat × Str
  | [] => (0, [])
  | c :: t =>
    if isJsWs c then
      let r := spanWs t
      (r.1 + 1, r.2)
    else (0, c :: t)

/-- The lookahead `(?=[\s>\/]|$)` of `THINKING_TAG_RE`. -/
def lookaheadOk : Str → Bool
  | [] => true
  | c :: _ => isJsWs c || c == '>' || c == '/'

/-- Match the tag-name alternation `think(?:ing)?|thought|antthinking`
(case-insensitively, in backtracking order) followed by the lookahead;
returns the number of characters the name consumes. -/
def tagWordLen (l : Str) : Option Nat :=
  if "thinking".data.isPrefixOf (jsLower l) && lookaheadOk (l.drop 8) then some 8
  else if "think".data.isPrefixOf (jsLower l) && lookaheadOk (l.drop 5) then some 5
  else if "thought".data.isPrefixOf (jsLower l) && lookaheadOk (l.drop 7) then some 7
  else if "antthinking".data.isPrefixOf (jsLower l) && lookaheadOk (l.drop 11) then some 11
  else none

/-- One attempt of `THINKING_TAG_RE` (`/<\s*(\/?)\s*(?:think(?:ing)?|thought|antthinking)(?=[\s>\/]|$)/gi`)
at the head of `l`: on success returns (is-closing-tag, matched length).
The lookahead consumes nothing, so a following `>` is not part of the match. -/
def matchTagAt (l : Str) : Option (Bool × Nat) :=
  match l with
  | '<' :: rest =>
    let w1 := spanWs rest
    let sl : Nat × Str :=
      match w1.2 with
      | '/' :: t => (1, t)
      | _ => (0, w1.2)
    let w2 := spanWs sl.2
    match tagWordLen w2.2 with
    | some wl => some (sl.1 == 1, 1 + w1.1 + sl.1 + w2.1 + wl)
    | none => none
  | _ => none

/-- Global scan of `THINKING_TAG_RE`, as `regex.exec` in a loop: (match index,
match length, is-closing) triples in order.  A match always consumes the
leading `<`, so `t.drop (len - 1)` is `l.drop len`, and every step consumes at
least one character, so `fuel = l.length` suffices and the scan below is
exactly the unbounded loop. -/
def scanTagsFuel : Nat → Str → Nat → List (Nat × Nat × Bool)
  | 0, _, _ => []
  | _ + 1, [], _ => []
  | fuel + 1, c :: t, pos =>
    match matchTagAt (c :: t) with
    | some (closing, len) =>
      (pos, len, closing) :: scanTagsFuel fuel (t.drop (len - 1)) (pos + len)
    | none => scanTagsFuel fuel t (pos + 1)

def scanTags (l : Str) (pos : Nat) : List (Nat × Nat × Bool) :=
  scanTagsFuel l.length l pos

/-- Index of the first occurrence of three backticks in `l`, if any
(the opening or closing of the fence regex ```` /```[\s\S]*?```/g ````). -/
def findTripleTick : Str → Option Nat
  | [] => none
  | c :: t =>
    if "```".data.isPrefixOf (c :: t) then some 0
    else (findTripleTick t).map (· + 1)

/-- `findCodeRegions` from position `pos`: each region is the earliest fence
opening paired with the lazily-earliest closing fence after it.  Each step
consumes at least six characters, so `fuel = l.length` suffices and this is
exactly the unbounded `exec` loop. -/
def findCodeRegionsFromFuel : Nat → Str → Nat → List (Nat × Nat)
  | 0, _, _ => []
  | fuel + 1, l, pos =>
    match findTripleTick l with
    | none => []
    | some i =>
      match findTripleTick (l.drop (i + 3)) with
      | none => []
      | some k =>
        (pos + i, pos + i + 3 + k + 3) ::
          findCodeRegionsFromFuel fuel (l.drop (i + 3 + k + 3)) (pos + i + 3 + k + 3)

/-- `findCodeRegions(text)`: fenced-code regions as (start, end-exclusive). -/
def findCodeRegions (text : Str) : List (Nat × Nat) :=
  findCodeRegionsFromFuel text.length text 0

/-- `isInsideCode(position, regions)`. -/
def isInsideCode (pos : Nat) (regions : List (Nat × Nat)) : Bool :=
  regions.any (fun r => decide (r.1 ≤ pos) && decide (pos < r.2))

/-- The tag matches the extract/strip loops actually process: matches whose
index lies inside a fenced code region are skipped (`continue`). -/
def tagMatchesOutsideCode (text : Str) : List (Nat × Nat × Bool) :=
  (scanTags text 0).filter (fun m => ! isInsideCode m.1 (findCodeRegions text))

/-- Common loop body of `extractThinkingFromTaggedStreamOutsideCode`
(`keep = true`: keep the in-thinking slices) and
`stripReasoningTagsFromText` (`keep = false`: keep the outside slices). -/
def foldTags (text : Str) (keep : Bool) :
    List (Nat × Nat × Bool) → Bool → Nat → Str
  | [], inTh, lastIdx => if inTh == keep then text.drop lastIdx else []
  | (idx, len, closing) :: rest, inTh, lastIdx =>
    (if inTh == keep then strSlice text lastIdx idx else []) ++
      foldTags text keep rest (!closing) (idx + len)

/-- `extractThinkingFromTaggedStreamOutsideCode(text)`. -/
def extractThinkingFromTaggedStreamOutsideCode (text : Str) : Str :=
  if text = [] then []
  else jsTrim (foldTags text true (tagMatchesOutsideCode text) false 0)

/-- `stripReasoningTagsFromText(text, options)`; the only call site passes
`trim: "both"`, embedded as `trimBoth = true`. -/
def stripReasoningTagsFromText (text : Str) (trimBoth : Bool) : Str :=
  if text = [] then []
  else
    let r := foldTags text false (tagMatchesOutsideCode text) false 0
    if trimBoth then jsTrim r else r

/-- `formatReasoningMessage(content)`. -/
def formatReasoningMessage (content : Str) : Str :=
  REASONING_MESSAGE_PREFIX ++ content

/-- `isPartialReasoningTagPrefix(text)`. -/
def isPartialReasoningTagPrefix (text : Str) : Bool :=
  let trimmed := jsLower (jsTrimStart text)
  "<".data.isPrefixOf trimmed && !(trimmed.contains '>') &&
    REASONING_TAG_PREFIXES.any (fun p => trimmed.isPrefixOf p)

structure SplitResult where
  reasoningText : Option Str
  answerText : Option Str
  deriving DecidableEq, Repr

/-- `splitFeishuReasoningText(text)`.  In the already-formatted branch the JS
`trimmed.slice(REASONING_MESSAGE_PREFIX.length)` drops exactly the prefix
(whose UTF-16 length is 8), which after the `startsWith` check equals dropping
the prefix's code-point length; `trimmed.length > 11` is a UTF-16 length. -/
def splitFeishuReasoningText (text : Str) : SplitResult :=
  let trimmed := jsTrim text
  if isPartialReasoningTagPrefix trimmed then ⟨none, none⟩
  else if REASONING_MESSAGE_PREFIX.isPrefixOf trimmed ∧ 11 < jsLength trimmed then
    let contentAfterPrefix := jsTrim (trimmed.drop REASONING_MESSAGE_PREFIX.length)
    ⟨some trimmed, if contentAfterPrefix = [] then none else some contentAfterPrefix⟩
  else
    let taggedReasoning := extractThinkingFromTaggedStreamOutsideCode text
    let strippedAnswer := stripReasoningTagsFromText text true
    if taggedReasoning = [] ∧ strippedAnswer = text then ⟨none, some text⟩
    else
      ⟨if taggedReasoning = [] then none else some (formatReasoningMessage taggedReasoning),
       if strippedAnswer ≠ [] then some strippedAnswer
       else if trimmed ≠ [] then some trimmed else none⟩

-- ===========================================================================
-- reply-dispatcher.ts: retry configuration and the consistency retry loop
-- ===========================================================================

def DEFAULT_RETRY_ATTEMPTS : Nat := 4

def DEFAULT_RETRY_DELAY_MS : Nat := 1200

def DEFAULT_RETRYABLE_ERRORS : List Str :=
  ["230011".data, "231003".data, "500".data, "502".data, "503".data,
   "ETIMEDOUT".data, "ECONNRESET".data]

def FINAL_TEXT_REPLY_GONE_CODES : List Str := ["230011".data, "231003".data]

/-- The `cfg.channels?.feishu?.retry` record, with each field optional. -/
structure RetryOverrides where
  maxRetries : Option Nat
  retryDelay : Option Nat
  retryableErrors : Option (List Str)

/-- The slice of `ClawdbotConfig` the dispatcher reads: `channels?.feishu?.retry`. -/
structure ClawdbotConfig where
  feishuRetry : Option RetryOverrides

structure RetryConfig where
  maxAttempts : Nat
  baseDelayMs : Nat
  retryableErrors : List Str

/-- `getRetryConfig(cfg)`. -/
def getRetryConfig (cfg : ClawdbotConfig) : RetryConfig :=
  { maxAttempts := ((cfg.feishuRetry.bind RetryOverrides.maxRetries).getD DEFAULT_RETRY_ATTEMPTS),
    baseDelayMs := ((cfg.feishuRetry.bind RetryOverrides.retryDelay).getD DEFAULT_RETRY_DELAY_MS),
    retryableErrors :=
      ((cfg.feishuRetry.bind RetryOverrides.retryableErrors).getD DEFAULT_RETRYABLE_ERRORS) }

/-- `shouldFallbackToFreshMessage(error)` over the stringified error. -/
def shouldFallbackToFreshMessage (error : Str) : Bool :=
  FINAL_TEXT_REPLY_GONE_CODES.any (fun code => strIncludes error code)

/-- Observable events of one queued consistency delivery. -/
inductive QEvent where
  | attempt (n : Nat) (replyTo : Option Nat)
  | sleep (ms : Nat)
  | exhaustedLog
  | noticeAttempt
  | noticeFailedLog
  deriving DecidableEq, Repr

def QEvent.isAttempt : QEvent → Bool
  | .attempt _ _ => true
  | _ => false

/-- The retry loop of `queueFinalTextWithConsistency`, with the `onFailure`
callback installed by `deliver` inlined in the exhaustion branch (error log,
one failure-notice send, and a log-only catch when that send fails).
`outcome n = none` means attempt `n`'s `sendFinalText` succeeds;
`outcome n = some err` means it throws with stringified error `err`.
The loop runs attempts `attempt, attempt+1, ...` and `fuel` bounds the
remaining iterations; the loop body never runs past `maxAttempts`, so
`fuel = maxAttempts` at entry reproduces `for (attempt = 1; attempt <= maxAttempts; ...)`. -/
def retryFrom (outcome : Nat → Option Str) (baseDelayMs maxAttempts : Nat)
    (noticeOk : Bool) : Nat → Nat → Option Nat → List QEvent
  | 0, _, _ => []
  | fuel + 1, attempt, replyTo =>
    match outcome attempt with
    | none => [.attempt attempt replyTo]
    | some err =>
      let replyTo' := if replyTo.isSome && shouldFallbackToFreshMessage err then none else replyTo
      if maxAttempts ≤ attempt then
        [.attempt attempt replyTo, .exhaustedLog, .noticeAttempt] ++
          (if noticeOk then [] else [.noticeFailedLog])
      else
        .attempt attempt replyTo :: .sleep (baseDelayMs * attempt) ::
          retryFrom outcome baseDelayMs maxAttempts noticeOk fuel (attempt + 1) replyTo'

/-- One queued consistency delivery, from attempt 1. -/
def retryLoop (cfg : RetryConfig) (outcome : Nat → Option Str) (noticeOk : Bool)
    (replyTo : Option Nat) : List QEvent :=
  retryFrom outcome cfg.baseDelayMs cfg.maxAttempts noticeOk cfg.maxAttempts 1 replyTo

-- ===========================================================================
-- reply-dispatcher.ts: the per-chat delivery queue
-- ===========================================================================

/-- The data of one `queueFinalTextWithConsistency` call that matters for
ordering: its per-attempt send outcomes, reply-to id, and whether the
failure-notice send (if reached) succeeds. -/
structure QueuedDelivery where
  outcome : Nat → Option Str
  replyTo : Option Nat
  noticeOk : Bool

/-- `` `${accountKey}:${chatId}` ``. -/
def queueKey (accountKey chatId : Str) : Str := accountKey ++ ":".data ++ chatId

/-- The `finalTextDeliveryQueues` map, with each key's stored promise chain
represented by the list of deliveries chained onto it, oldest first.
`queueFinalTextWithConsistency` chains the new delivery after the previously
stored promise for its key (`previous.catch(() => {}).then(...)`), which
appends it to that key's chain. -/
def enqueueFinalText (queues : Str → List QueuedDelivery) (accountKey chatId : Str)
    (d : QueuedDelivery) : Str → List QueuedDelivery :=
  fun k => if k = queueKey accountKey chatId then queues k ++ [d] else queues k

/-- Event-loop semantics of one key's promise chain: each continuation starts
only when the previous promise has settled (the `.catch(() => {})` step makes
a rejected predecessor settle the chain instead of skipping it), so the
deliveries run to completion one after another, in chain order.  Events are
tagged with the 0-based position of their delivery in the chain. -/
def runDeliveries (cfg : RetryConfig) : List QueuedDelivery → List (Nat × QEvent)
  | [] => []
  | d :: rest =>
    (retryLoop cfg d.outcome d.noticeOk d.replyTo).map (fun e => (0, e)) ++
      (runDeliveries cfg rest).map (fun p => (p.1 + 1, p.2))

-- ===========================================================================
-- reply-dispatcher.ts: deliver (the final-reply callback)
-- ===========================================================================

/-- Observable events of one `deliver` invocation.  `send text replyTo mentions`
is a `sendMessageFeishu` call; `mentions` records whether the dispatcher's
@-mention list was attached. -/
inductive DeliverEvent where
  | send (text : Str) (replyTo : Option Nat) (mentions : Bool)
  | enqueue (text : Str)
  | warnOnlyReasoning
  | reasoningErrorLog
  deriving DecidableEq, Repr

/-- The loop of `sendFinalText`: sends every chunk, with the reply-to id and
mention list only on the first.  `failAt = some i` makes the send of chunk `i`
throw (aborting the loop); the Bool result is whether the loop completed. -/
def sendChunks (replyTo : Option Nat) (hasMentions : Bool) (failAt : Option Nat) :
    List Str → Nat → Bool → List DeliverEvent × Bool
  | [], _, _ => ([], true)
  | c :: cs, i, first =>
    let ev := DeliverEvent.send c (if first then replyTo else none) (first && hasMentions)
    if failAt = some i then ([ev], false)
    else
      let r := sendChunks replyTo hasMentions failAt cs (i + 1) false
      (ev :: r.1, r.2)

/-- `sendFinalText(params)`: table conversion, then chunked sends. -/
def sendFinalTextTrace (convert : Str → Str) (chunk : Str → List Str)
    (text : Str) (replyTo : Option Nat) (hasMentions : Bool) (failAt : Option Nat) :
    List DeliverEvent × Bool :=
  sendChunks replyTo hasMentions failAt (chunk (convert text)) 0 true

/-- The `deliver` callback of `createFeishuReplyDispatcher` for a `final`
payload.  `convert` and `chunk` stand for the host runtime's
`convertMarkdownTables` and `chunkTextWithMode` (external to this repository).
The reasoning branch sends at most the first chunk (`break` after the first
send); `reasoningFails` makes that send throw, which is only logged.  The
answer branch runs `sendFinalText` and, on failure, enqueues the answer text
onto the consistency queue. -/
def deliver (convert : Str → Str) (chunk : Str → List Str) (hasMentions : Bool)
    (replyTo : Option Nat) (text : Str) (answerFailAt : Option Nat)
    (reasoningFails : Bool) : List DeliverEvent :=
  if jsTrim text = [] then []
  else
    let parts := splitFeishuReasoningText text
    let reasoningNonEmpty : Bool :=
      match parts.reasoningText with
      | some rt => !(jsTrim rt).isEmpty
      | none => false
    let reasoningEvents : List DeliverEvent :=
      match parts.reasoningText with
      | some rt =>
        if jsTrim rt = [] then []
        else
          (match chunk (convert rt) with
           | [] => []
           | c :: _ => [DeliverEvent.send c replyTo hasMentions]) ++
            (if reasoningFails then [DeliverEvent.reasoningErrorLog] else [])
      | none => []
    let answerEvents : List DeliverEvent :=
      match parts.answerText with
      | some a =>
        if jsTrim a = [] then
          if reasoningNonEmpty then [DeliverEvent.warnOnlyReasoning] else []
        else
          let r := sendFinalTextTrace convert chunk a replyTo hasMentions answerFailAt
          r.1 ++ (if r.2 then [] else [DeliverEvent.enqueue a])
      | none => if reasoningNonEmpty then [DeliverEvent.warnOnlyReasoning] else []
    reasoningEvents ++ answerEvents

/-- A conforming model chunker: pieces of at most `n + 1` characters.  Each
step consumes at least one character, so `fuel = s.length` suffices. -/
def chunkEveryFuel (n : Nat) : Nat → Str → List Str
  | 0, _ => []
  | _ + 1, [] => []
  | fuel + 1, c :: t => (c :: t.take n) :: chunkEveryFuel n fuel (t.drop n)

def chunkEvery (n : Nat) (s : Str) : List Str := chunkEveryFuel n s.length s

-- ===========================================================================
-- Orchestrator command router (modelled from the spec)
-- ===========================================================================

inductive TaskStatus where
  | pending | claimed | inProgress | review | done | blocked
  deriving DecidableEq, Repr

structure OrchTask where
  taskId : Str
  title : Str
  status : TaskStatus
  assigneeHint : Option Str
  relatedTo : Option Str
  history : List Str
  deriving DecidableEq, Repr

abbrev Board := List OrchTask

def findTask (b : Board) (tid : Str) : Option OrchTask :=
  b.find? (fun t => t.taskId == tid)

/-- Modelled from the spec: the orchestrator command router's `mark done`
intent.  The router implementation is not under `src/` (only its
documentation, `src/unnamed/part_006`, which states that marking an
already-`done` task returns the idempotent notice
`[DONE] T-xxx 已完成，无需重复执行` and does not change state). -/
def routerMarkDone (b : Board) (tid result : Str) : Board × Str :=
  match findTask b tid with
  | none => (b, "task not found".data)
  | some t =>
    if t.status = TaskStatus.done then
      (b, "[DONE] ".data ++ tid ++ " 已完成，无需重复执行".data)
    else
      (b.map (fun u =>
          if u.taskId == tid then
            { u with status := TaskStatus.done,
                     history := u.history ++ ["mark_done: ".data ++ result] }
          else u),
       "[DONE] ".data ++ tid)

/-- The per-task update `escalate` applies to the original task. -/
def escUpdate (tid reason : Str) (u : OrchTask) : OrchTask :=
  if u.taskId == tid then
    { u with status := TaskStatus.blocked,
             history := u.history ++ ["escalate: ".data ++ reason] }
  else u

/-- The diagnostic follow-up task `escalate` creates. -/
def diagTask (tid reason newId : Str) : OrchTask :=
  { taskId := newId, title := "diagnose: ".data ++ reason,
    status := TaskStatus.pending, assigneeHint := some "debugger".data,
    relatedTo := some tid, history := [] }

/-- Modelled from the spec: the router's `escalate task <id>: <reason>` intent.
The router implementation is not under `src/`; `src/unnamed/part_006`
documents that escalate blocks the original task and creates one diagnostic
follow-up task with `assigneeHint=debugger` and `relatedTo=<originalTaskId>`. -/
def routerEscalate (b : Board) (tid reason newId : Str) : Board × Str :=
  match findTask b tid with
  | none => (b, "task not found".data)
  | some _ =>
    (b.map (escUpdate tid reason) ++ [diagTask tid reason newId],
     "[DIAG] ".data ++ newId)

-- ===========================================================================
-- Daily market insight stage scripts (usage guards)
-- ===========================================================================

/-- Outcome of running a stage script: either the usage branch (message,
non-zero exit, nothing written) or the main branch.  An absent positional
parameter and an empty one are both `""` under `[ -z "$1" ]`. -/
structure StageResult where
  usageMessage : Option Str
  exitCode : Nat
  wroteArtifact : Bool
  deriving DecidableEq, Repr

def usageExit (scriptName argsDoc : Str) : StageResult :=
  { usageMessage := some ("Usage: ".data ++ scriptName ++ " ".data ++ argsDoc),
    exitCode := 1, wroteArtifact := false }

/-- `agent_news_analysis` (src/unnamed/part_009): requires `$1`. -/
def agentNewsAnalysis (scriptName newsContent outputFile : Str) : StageResult :=
  if newsContent = [] then usageExit scriptName "<news_content> [output_file]".data
  else { usageMessage := none, exitCode := 0, wroteArtifact := outputFile ≠ [] }

/-- `agent_market_trend.sh`: requires `$1`. -/
def agentMarketTrend (scriptName analysisContent outputFile : Str) : StageResult :=
  if analysisContent = [] then usageExit scriptName "<analysis_content> [output_file]".data
  else { usageMessage := none, exitCode := 0, wroteArtifact := outputFile ≠ [] }

/-- `report_generator.sh`: requires `$1` and `$2`. -/
def reportGenerator (scriptName newsAnalysis marketTrend outputFile : Str) : StageResult :=
  if newsAnalysis = [] ∨ marketTrend = [] then
    usageExit scriptName "<news_analysis> <market_trend> [output_file]".data
  else { usageMessage := none, exitCode := 0, wroteArtifact := outputFile ≠ [] }

-- ===========================================================================
-- Helper lemmas
-- ===========================================================================

theorem strIncludes_append_left (pre s needle : Str) (h : strIncludes s needle = true) :
    strIncludes (pre ++ s) needle = true := by
  induction pre with
  | nil => simpa using h
  | cons c t ih =>
    simp only [List.cons_append, strIncludes, Bool.or_eq_true]
    exact Or.inr ih

theorem jsTrim_nil : jsTrim ([] : Str) = [] := rfl

theorem chunkEveryFuel_flatten (n : Nat) :
    ∀ (fuel : Nat) (s : Str), s.length ≤ fuel → (chunkEveryFuel n fuel s).flatten = s := by
  intro fuel
  induction fuel with
  | zero =>
    intro s hs
    have hnil : s = [] := by cases s <;> simp_all
    simp [hnil, chunkEveryFuel]
  | succ k ih =>
    intro s hs
    cases s with
    | nil => simp [chunkEveryFuel]
    | cons c t =>
      simp only [chunkEveryFuel, List.flatten_cons]
      rw [ih (t.drop n) (by simp only [List.length_drop]; simp at hs; omega)]
      simp [List.take_append_drop]

theorem chunkEvery_join (n : Nat) (s : Str) : (chunkEvery n s).flatten = s :=
  chunkEveryFuel_flatten n s.length s le_rfl

theorem usage_header_prefix (name doc : Str) :
    "Usage:".data <+: ("Usage: ".data ++ name ++ " ".data ++ doc) :=
  ⟨' ' :: (name ++ (' ' :: doc)), by simp⟩

theorem isAttempt_attempt (n : Nat) (r : Option Nat) :
    QEvent.isAttempt (QEvent.attempt n r) = true := rfl

theorem isAttempt_sleep (ms : Nat) : QEvent.isAttempt (QEvent.sleep ms) = false := rfl

theorem retryFrom_succ_none (o : Nat → Option Str) (b maxA : Nat) (ok : Bool)
    (f a : Nat) (r : Option Nat) (h : o a = none) :
    retryFrom o b maxA ok (f + 1) a r = [QEvent.attempt a r] := by
  rw [retryFrom, h]

theorem retryFrom_succ_exhaust (o : Nat → Option Str) (b maxA : Nat) (ok : Bool)
    (f a : Nat) (r : Option Nat) (err : Str) (h : o a = some err) (hm : maxA ≤ a) :
    retryFrom o b maxA ok (f + 1) a r =
      [QEvent.attempt a r, QEvent.exhaustedLog, QEvent.noticeAttempt] ++
        (if ok then [] else [QEvent.noticeFailedLog]) := by
  rw [retryFrom, h]
  dsimp only
  rw [if_pos hm]

theorem retryFrom_succ_next (o : Nat → Option Str) (b maxA : Nat) (ok : Bool)
    (f a : Nat) (r : Option Nat) (err : Str) (h : o a = some err) (hm : ¬ maxA ≤ a) :
    retryFrom o b maxA ok (f + 1) a r =
      QEvent.attempt a r :: QEvent.sleep (b * a) ::
        retryFrom o b maxA ok f (a + 1)
          (if r.isSome && shouldFallbackToFreshMessage err then none else r) := by
  rw [retryFrom, h]
  dsimp only
  rw [if_neg hm]

theorem retryFrom_countP_attempt (o : Nat → Option Str) (b maxA : Nat) (ok : Bool) :
    ∀ (fuel a : Nat) (r : Option Nat),
      (retryFrom o b maxA ok fuel a r).countP (fun e => QEvent.isAttempt e) ≤ fuel := by
  intro fuel
  induction fuel with
  | zero => intro a r; simp [retryFrom]
  | succ f ih =>
    intro a r
    cases h : o a with
    | none =>
      rw [retryFrom_succ_none o b maxA ok f a r h]
      simp [QEvent.isAttempt]
    | some err =>
      by_cases hm : maxA ≤ a
      · rw [retryFrom_succ_exhaust o b maxA ok f a r err h hm]
        cases ok <;> simp [List.countP_cons, List.countP_append, QEvent.isAttempt]
      · rw [retryFrom_succ_next o b maxA ok f a r err h hm]
        have hrec := ih (a + 1) (if r.isSome && shouldFallbackToFreshMessage err then none else r)
        simp [List.countP_cons, isAttempt_attempt, isAttempt_sleep] at hrec ⊢
        omega

theorem retryFrom_attempt_ge (o : Nat → Option Str) (b maxA : Nat) (ok : Bool) :
    ∀ (fuel a : Nat) (r : Option Nat) (k : Nat) (rk : Option Nat),
      QEvent.attempt k rk ∈ retryFrom o b maxA ok fuel a r → a ≤ k := by
  intro fuel
  induction fuel with
  | zero => intro a r k rk hmem; simp [retryFrom] at hmem
  | succ f ih =>
    intro a r k rk hmem
    cases h : o a with
    | none =>
      rw [retryFrom_succ_none o b maxA ok f a r h] at hmem
      simp only [List.mem_singleton, QEvent.attempt.injEq] at hmem
      omega
    | some err =>
      by_cases hm : maxA ≤ a
      · rw [retryFrom_succ_exhaust o b maxA ok f a r err h hm] at hmem
        cases ok <;> simp_all
      · rw [retryFrom_succ_next o b maxA ok f a r err h hm] at hmem
        rcases List.mem_cons.mp hmem with he | hmem2
        · injection he with h1 h2
          omega
        · rcases List.mem_cons.mp hmem2 with he | hmem3
          · simp at he
          · have := ih _ _ _ _ hmem3
            omega

theorem retryFrom_sleep_between (o : Nat → Option Str) (b maxA : Nat) (ok : Bool) :
    ∀ (fuel a : Nat) (r : Option Nat) (k : Nat) (r1 r2 : Option Nat),
      QEvent.attempt k r1 ∈ retryFrom o b maxA ok fuel a r →
      QEvent.attempt (k + 1) r2 ∈ retryFrom o b maxA ok fuel a r →
      [QEvent.attempt k r1, QEvent.sleep (b * k),
        QEvent.attempt (k + 1) r2].Sublist (retryFrom o b maxA ok fuel a r) := by
  intro fuel
  induction fuel with
  | zero => intro a r k r1 r2 h1 h2; simp [retryFrom] at h1
  | succ f ih =>
    intro a r k r1 r2 h1 h2
    cases h : o a with
    | none =>
      rw [retryFrom_succ_none o b maxA ok f a r h] at h1 h2
      simp only [List.mem_singleton, QEvent.attempt.injEq] at h1 h2
      omega
    | some err =>
      by_cases hm : maxA ≤ a
      · rw [retryFrom_succ_exhaust o b maxA ok f a r err h hm] at h1 h2
        cases ok <;> simp_all
      · rw [retryFrom_succ_next o b maxA ok f a r err h hm] at h1 h2 ⊢
        rcases List.mem_cons.mp h1 with he1 | h1'
        · -- the earlier attempt is the head, so k = a and r1 = r
          injection he1 with he1a he1b
          subst he1a
          subst he1b
          have h2' : QEvent.attempt (k + 1) r2 ∈
              retryFrom o b maxA ok f (k + 1)
                (if r1.isSome && shouldFallbackToFreshMessage err then none else r1) := by
            rcases List.mem_cons.mp h2 with he | h2'
            · injection he with hx
              omega
            · rcases List.mem_cons.mp h2' with he | h2''
              · simp at he
              · exact h2''
          exact List.Sublist.cons₂ _ (List.Sublist.cons₂ _
            (List.singleton_sublist.mpr h2'))
        · rcases List.mem_cons.mp h1' with he | h1''
          · simp at he
          · have hge := retryFrom_attempt_ge o b maxA ok f (a + 1) _ k r1 h1''
            have h2'' : QEvent.attempt (k + 1) r2 ∈
                retryFrom o b maxA ok f (a + 1)
                  (if r.isSome && shouldFallbackToFreshMessage err then none else r) := by
              rcases List.mem_cons.mp h2 with he | h2'
              · injection he with hx
                omega
              · rcases List.mem_cons.mp h2' with he | h2''
                · simp at he
                · exact h2''
            exact List.Sublist.cons _ (List.Sublist.cons _ (ih _ _ _ _ _ h1'' h2''))

theorem retryFrom_fresh_after_gone (o : Nat → Option Str) (b maxA : Nat) (ok : Bool)
    (k : Nat) (err : Str) (hk : o k = some err)
    (hfb : shouldFallbackToFreshMessage err = true) :
    ∀ (fuel a : Nat) (r : Option Nat), (a ≤ k ∨ r = none) →
      ∀ (j : Nat) (r' : Option Nat), k < j →
        QEvent.attempt j r' ∈ retryFrom o b maxA ok fuel a r → r' = none := by
  intro fuel
  induction fuel with
  | zero => intro a r hstart j r' hj hmem; simp [retryFrom] at hmem
  | succ f ih =>
    intro a r hstart j r' hj hmem
    have hhead : QEvent.attempt j r' = QEvent.attempt a r → r' = none := by
      intro he
      injection he with he1 he2
      rcases hstart with hak | hnone
      · omega
      · rw [he2, hnone]
    cases h : o a with
    | none =>
      rw [retryFrom_succ_none o b maxA ok f a r h] at hmem
      exact hhead (List.mem_singleton.mp hmem)
    | some err2 =>
      by_cases hm : maxA ≤ a
      · rw [retryFrom_succ_exhaust o b maxA ok f a r err2 h hm] at hmem
        rcases List.mem_cons.mp hmem with he | hmem'
        · exact hhead he
        · cases ok <;> simp_all
      · rw [retryFrom_succ_next o b maxA ok f a r err2 h hm] at hmem
        rcases List.mem_cons.mp hmem with he | hmem'
        · exact hhead he
        · rcases List.mem_cons.mp hmem' with he | hmem''
          · simp at he
          · refine ih (a + 1) _ ?_ j r' hj hmem''
            rcases hstart with hak | hnone
            · rcases Nat.lt_or_ge a k with hlt | hge
              · exact Or.inl hlt
              · -- a = k, so this attempt failed with the reply-gone error:
                -- the fallback fires (or the reply-to id was already dropped)
                have hak2 : a = k := by omega
                right
                rw [hak2, hk] at h
                injection h with herr
                cases r with
                | none => simp
                | some v =>
                  rw [herr] at hfb
                  simp [hfb]
            · right
              rw [hnone]
              simp

theorem retryFrom_head (o : Nat → Option Str) (b maxA : Nat) (ok : Bool)
    (fuel a : Nat) (r : Option Nat) (h : 0 < fuel) :
    ∃ tl, retryFrom o b maxA ok fuel a r = QEvent.attempt a r :: tl := by
  cases fuel with
  | zero => omega
  | succ f =>
    cases ho : o a with
    | none => exact ⟨[], retryFrom_succ_none o b maxA ok f a r ho⟩
    | some err =>
      by_cases hm : maxA ≤ a
      · exact ⟨_, retryFrom_succ_exhaust o b maxA ok f a r err ho hm⟩
      · exact ⟨_, retryFrom_succ_next o b maxA ok f a r err ho hm⟩

theorem retryFrom_retry_after_failure (o : Nat → Option Str) (b maxA : Nat) (ok : Bool) :
    ∀ (fuel a : Nat) (r : Option Nat) (k : Nat) (err : Str) (r1 : Option Nat),
      a + fuel = maxA + 1 →
      o k = some err → k < maxA →
      QEvent.attempt k r1 ∈ retryFrom o b maxA ok fuel a r →
      ∃ r2, QEvent.attempt (k + 1) r2 ∈ retryFrom o b maxA ok fuel a r := by
  intro fuel
  induction fuel with
  | zero => intro a r k err r1 hfa hk hkm hmem; simp [retryFrom] at hmem
  | succ f ih =>
    intro a r k err r1 hfa hk hkm hmem
    cases h : o a with
    | none =>
      rw [retryFrom_succ_none o b maxA ok f a r h] at hmem
      simp only [List.mem_singleton, QEvent.attempt.injEq] at hmem
      rw [← hmem.1] at h
      rw [h] at hk
      cases hk
    | some err2 =>
      by_cases hm : maxA ≤ a
      · rw [retryFrom_succ_exhaust o b maxA ok f a r err2 h hm] at hmem
        have hka : k = a := by
          rcases List.mem_cons.mp hmem with he | hmem'
          · injection he with h1 h2
          · cases ok <;> simp_all
        omega
      · rw [retryFrom_succ_next o b maxA ok f a r err2 h hm] at hmem ⊢
        rcases List.mem_cons.mp hmem with he | hmem'
        · -- the failing attempt is the head: k = a, and the tail begins
          -- with attempt (a + 1)
          injection he with he1 he2
          have hf : 0 < f := by omega
          obtain ⟨tl, htl⟩ := retryFrom_head o b maxA ok f (a + 1)
            (if r.isSome && shouldFallbackToFreshMessage err2 then none else r) hf
          refine ⟨if r.isSome && shouldFallbackToFreshMessage err2 then none else r, ?_⟩
          rw [he1]
          refine List.mem_cons_of_mem _ (List.mem_cons_of_mem _ ?_)
          rw [htl]
          exact List.mem_cons_self _ _
        · rcases List.mem_cons.mp hmem' with he | hmem''
          · simp at he
          · obtain ⟨r2, hr2⟩ := ih (a + 1) _ k err r1 (by omega) hk hkm hmem''
            exact ⟨r2, List.mem_cons_of_mem _ (List.mem_cons_of_mem _ hr2)⟩

theorem retryFrom_notice_count (o : Nat → Option Str) (b maxA : Nat) (ok : Bool) :
    ∀ (fuel a : Nat) (r : Option Nat),
      a + fuel = maxA + 1 → a ≤ maxA →
      (∀ m, a ≤ m → m ≤ maxA → o m ≠ none) →
      ((retryFrom o b maxA ok fuel a r).count QEvent.noticeAttempt = 1 ∧
       (ok = false → QEvent.noticeFailedLog ∈ retryFrom o b maxA ok fuel a r ∧
         (retryFrom o b maxA ok fuel a r).count QEvent.noticeFailedLog = 1) ∧
       (ok = true → QEvent.noticeFailedLog ∉ retryFrom o b maxA ok fuel a r)) := by
  intro fuel
  induction fuel with
  | zero => intro a r hfa ha hall; exact absurd hfa (by omega)
  | succ f ih =>
    intro a r hfa ha hall
    cases h : o a with
    | none => exact absurd h (hall a le_rfl ha)
    | some err =>
      by_cases hm : maxA ≤ a
      · rw [retryFrom_succ_exhaust o b maxA ok f a r err h hm]
        cases ok <;> simp [List.count_cons, List.count_append]
      · rw [retryFrom_succ_next o b maxA ok f a r err h hm]
        have prev := ih (a + 1) (if r.isSome && shouldFallbackToFreshMessage err then none else r)
          (by omega) (by omega) (fun m h1 h2 => hall m (by omega) h2)
        refine ⟨?_, ?_, ?_⟩
        · rw [List.count_cons, List.count_cons, prev.1]
          simp
        · intro hok
          refine ⟨List.mem_cons_of_mem _ (List.mem_cons_of_mem _ ((prev.2.1 hok).1)), ?_⟩
          rw [List.count_cons, List.count_cons, (prev.2.1 hok).2]
          simp
        · intro hok hmem
          rcases List.mem_cons.mp hmem with he | hmem'
          · cases he
          · rcases List.mem_cons.mp hmem' with he | hmem''
            · cases he
            · exact (prev.2.2 hok) hmem''

-- ===========================================================================
-- Claim theorems
-- ===========================================================================

/-- Claim C1: the spec states that `splitFeishuReasoningText` on
`"<think>internal</think>final answer"` yields reasoning
`"🧠 思考过程\ninternal"` and answer `"final answer"`.  Evaluating the code at
this input shows it does not: the tag regex's lookahead never consumes the
closing `>` of either tag, so the `>` leaks into both the extracted reasoning
(`">internal"`) and the stripped answer (`">final answer"`). -/
theorem C1_split_eval :
    splitFeishuReasoningText "<think>internal</think>final answer".data =
      ⟨some ("🧠 思考过程\n>internal".data), some (">final answer".data)⟩ ∧
    ("🧠 思考过程\n>internal".data : Str) ≠ "🧠 思考过程\ninternal".data ∧
    (">final answer".data : Str) ≠ "final answer".data := by
  refine ⟨by decide, by decide, by decide⟩

/-- Claim C10: every input whose trimmed form is non-empty, is not a partial
thinking-tag fragment, and does not start with the reasoning header produces a
non-empty `answerText` from `splitFeishuReasoningText`: the answer payload is
never silently dropped by the split. -/
theorem C10_answer_not_dropped (text : Str)
    (h1 : jsTrim text ≠ [])
    (h2 : isPartialReasoningTagPrefix (jsTrim text) = false)
    (h3 : REASONING_MESSAGE_PREFIX.isPrefixOf (jsTrim text) = false) :
    ∃ a, (splitFeishuReasoningText text).answerText = some a ∧ a ≠ [] := by
  have htext : text ≠ [] := by
    intro he
    rw [he] at h1
    exact h1 jsTrim_nil
  have hpartial : ¬ (isPartialReasoningTagPrefix (jsTrim text) = true) := by simp [h2]
  have hpfx : ¬ ((REASONING_MESSAGE_PREFIX.isPrefixOf (jsTrim text) = true) ∧
      11 < jsLength (jsTrim text)) := by simp [h3]
  simp only [splitFeishuReasoningText]
  rw [if_neg hpartial, if_neg hpfx]
  by_cases hcase : extractThinkingFromTaggedStreamOutsideCode text = [] ∧
      stripReasoningTagsFromText text true = text
  · rw [if_pos hcase]
    exact ⟨text, rfl, htext⟩
  · rw [if_neg hcase]
    by_cases hs : stripReasoningTagsFromText text true = []
    · refine ⟨jsTrim text, ?_, h1⟩
      simp [hs, h1]
    · refine ⟨stripReasoningTagsFromText text true, ?_, hs⟩
      simp [hs]

/-- Witness for C10 at the concrete input `"hello"`. -/
theorem C10_answer_not_dropped_witness :
    ∃ a, (splitFeishuReasoningText "hello".data).answerText = some a ∧ a ≠ [] :=
  C10_answer_not_dropped "hello".data (by decide) (by decide) (by decide)

/-- Claim C7: invoking the router's mark-done intent on a task whose status is
already `done` leaves the board (hence every task's status and history)
unchanged and returns a response containing 已完成，无需重复执行. -/
theorem C7_idempotent_done (b : Board) (tid result : Str) (t : OrchTask)
    (hfind : findTask b tid = some t) (hdone : t.status = TaskStatus.done) :
    (routerMarkDone b tid result).1 = b ∧
    strIncludes (routerMarkDone b tid result).2 "已完成，无需重复执行".data = true := by
  unfold routerMarkDone
  rw [hfind]
  simp only [hdone, if_pos rfl]
  refine ⟨rfl, ?_⟩
  have : "[DONE] ".data ++ tid ++ " 已完成，无需重复执行".data =
      ("[DONE] ".data ++ tid ++ [' ']) ++ "已完成，无需重复执行".data := by
    simp
  rw [this]
  exact strIncludes_append_left _ _ _ (by decide)

/-- Witness for C7 on a one-task board whose task `T-001` is already done. -/
theorem C7_idempotent_done_witness :
    (routerMarkDone ([⟨"T-001".data, "t".data, TaskStatus.done, none, none, []⟩] : Board)
        "T-001".data "again".data).1 =
      ([⟨"T-001".data, "t".data, TaskStatus.done, none, none, []⟩] : Board) ∧
    strIncludes (routerMarkDone ([⟨"T-001".data, "t".data, TaskStatus.done, none, none, []⟩] : Board)
        "T-001".data "again".data).2 "已完成，无需重复执行".data = true :=
  C7_idempotent_done ([⟨"T-001".data, "t".data, TaskStatus.done, none, none, []⟩] : Board)
    "T-001".data "again".data ⟨"T-001".data, "t".data, TaskStatus.done, none, none, []⟩
    (by decide) (by decide)

/-- Claim C8: `escalate task <tid>: <reason>` on an existing task blocks the
original task, creates exactly one new task carrying `assigneeHint=debugger`
and `relatedTo=<tid>`, and changes no other task. -/
theorem C8_escalate (b : Board) (tid reason newId : Str) (t : OrchTask)
    (hfind : findTask b tid = some t) :
    (routerEscalate b tid reason newId).1 =
      b.map (escUpdate tid reason) ++ [diagTask tid reason newId] ∧
    (routerEscalate b tid reason newId).1.length = b.length + 1 ∧
    (diagTask tid reason newId).assigneeHint = some "debugger".data ∧
    (diagTask tid reason newId).relatedTo = some tid ∧
    (∀ u ∈ b, u.taskId = tid →
      ({ u with status := TaskStatus.blocked,
                history := u.history ++ ["escalate: ".data ++ reason] } : OrchTask) ∈
        (routerEscalate b tid reason newId).1) ∧
    (∀ u ∈ b, u.taskId ≠ tid → u ∈ (routerEscalate b tid reason newId).1) ∧
    (∀ v ∈ (routerEscalate b tid reason newId).1,
      v = diagTask tid reason newId ∨ ∃ u ∈ b, v = escUpdate tid reason u) := by
  unfold routerEscalate
  rw [hfind]
  refine ⟨rfl, by simp, rfl, rfl, ?_, ?_, ?_⟩
  · intro u hu hid
    simp only [List.mem_append, List.mem_map]
    exact Or.inl ⟨u, hu, by simp [escUpdate, hid]⟩
  · intro u hu hid
    simp only [List.mem_append, List.mem_map]
    exact Or.inl ⟨u, hu, by simp [escUpdate, hid]⟩
  · intro v hv
    rcases List.mem_append.mp hv with hv | hv
    · rcases List.mem_map.mp hv with ⟨u, hu, he⟩
      exact Or.inr ⟨u, hu, he.symm⟩
    · simp only [List.mem_singleton] at hv
      exact Or.inl hv

/-- Witness for C8 on a one-task board, escalating `T-101`. -/
theorem C8_escalate_witness :
    (routerEscalate ([⟨"T-101".data, "t".data, TaskStatus.inProgress, none, none, []⟩] : Board)
        "T-101".data "auth failing".data "T-102".data).1 =
      ([⟨"T-101".data, "t".data, TaskStatus.inProgress, none, none, []⟩] : Board).map
          (escUpdate "T-101".data "auth failing".data) ++
        [diagTask "T-101".data "auth failing".data "T-102".data] ∧
    (routerEscalate ([⟨"T-101".data, "t".data, TaskStatus.inProgress, none, none, []⟩] : Board)
        "T-101".data "auth failing".data "T-102".data).1.length =
      ([⟨"T-101".data, "t".data, TaskStatus.inProgress, none, none, []⟩] : Board).length + 1 ∧
    (diagTask "T-101".data "auth failing".data "T-102".data).assigneeHint =
      some "debugger".data ∧
    (diagTask "T-101".data "auth failing".data "T-102".data).relatedTo =
      some "T-101".data ∧
    (∀ u ∈ [(⟨"T-101".data, "t".data, TaskStatus.inProgress, none, none, []⟩ : OrchTask)],
      u.taskId = "T-101".data →
      ({ u with status := TaskStatus.blocked,
                history := u.history ++ ["escalate: ".data ++ "auth failing".data] } : OrchTask) ∈
        (routerEscalate ([⟨"T-101".data, "t".data, TaskStatus.inProgress, none, none, []⟩] : Board)
          "T-101".data "auth failing".data "T-102".data).1) ∧
    (∀ u ∈ [(⟨"T-101".data, "t".data, TaskStatus.inProgress, none, none, []⟩ : OrchTask)],
      u.taskId ≠ "T-101".data →
      u ∈ (routerEscalate ([⟨"T-101".data, "t".data, TaskStatus.inProgress, none, none, []⟩] : Board)
        "T-101".data "auth failing".data "T-102".data).1) ∧
    (∀ v ∈ (routerEscalate ([⟨"T-101".data, "t".data, TaskStatus.inProgress, none, none, []⟩] : Board)
        "T-101".data "auth failing".data "T-102".data).1,
      v = diagTask "T-101".data "auth failing".data "T-102".data ∨
        ∃ u ∈ [(⟨"T-101".data, "t".data, TaskStatus.inProgress, none, none, []⟩ : OrchTask)],
          v = escUpdate "T-101".data "auth failing".data u) :=
  C8_escalate ([⟨"T-101".data, "t".data, TaskStatus.inProgress, none, none, []⟩] : Board)
    "T-101".data "auth failing".data "T-102".data
    ⟨"T-101".data, "t".data, TaskStatus.inProgress, none, none, []⟩ (by decide)

/-- Claim C9: each market-insight stage script, given a missing (empty) required
positional argument, produces a usage message beginning with `Usage:`, a
non-zero exit code, and writes no output artifact; with the required arguments
present it does not take the usage branch. -/
theorem C9_usage_guard (name c out ana news trend : Str) :
    (c = [] →
      ∃ m, (agentNewsAnalysis name c out).usageMessage = some m ∧
        "Usage:".data <+: m ∧
        (agentNewsAnalysis name c out).exitCode ≠ 0 ∧
        (agentNewsAnalysis name c out).wroteArtifact = false) ∧
    (c ≠ [] → (agentNewsAnalysis name c out).usageMessage = none) ∧
    (ana = [] →
      ∃ m, (agentMarketTrend name ana out).usageMessage = some m ∧
        "Usage:".data <+: m ∧
        (agentMarketTrend name ana out).exitCode ≠ 0 ∧
        (agentMarketTrend name ana out).wroteArtifact = false) ∧
    (ana ≠ [] → (agentMarketTrend name ana out).usageMessage = none) ∧
    (news = [] ∨ trend = [] →
      ∃ m, (reportGenerator name news trend out).usageMessage = some m ∧
        "Usage:".data <+: m ∧
        (reportGenerator name news trend out).exitCode ≠ 0 ∧
        (reportGenerator name news trend out).wroteArtifact = false) ∧
    (news ≠ [] → trend ≠ [] → (reportGenerator name news trend out).usageMessage = none) := by
  refine ⟨?_, ?_, ?_, ?_, ?_, ?_⟩
  · intro hc
    refine ⟨"Usage: ".data ++ name ++ " ".data ++ "<news_content> [output_file]".data,
      by simp [agentNewsAnalysis, hc, usageExit], usage_header_prefix _ _,
      by simp [agentNewsAnalysis, hc, usageExit], by simp [agentNewsAnalysis, hc, usageExit]⟩
  · intro hc
    simp [agentNewsAnalysis, hc]
  · intro ha
    refine ⟨"Usage: ".data ++ name ++ " ".data ++ "<analysis_content> [output_file]".data,
      by simp [agentMarketTrend, ha, usageExit], usage_header_prefix _ _,
      by simp [agentMarketTrend, ha, usageExit], by simp [agentMarketTrend, ha, usageExit]⟩
  · intro ha
    simp [agentMarketTrend, ha]
  · intro hnt
    refine ⟨"Usage: ".data ++ name ++ " ".data ++ "<news_analysis> <market_trend> [output_file]".data,
      by simp [reportGenerator, hnt, usageExit], usage_header_prefix _ _,
      by simp [reportGenerator, hnt, usageExit], by simp [reportGenerator, hnt, usageExit]⟩
  · intro hn ht
    simp [reportGenerator, hn, ht]

/-- Witness for C9: the news-analysis and trend agents with `$1` empty and the
report generator with `$2` empty all take the usage branch; with arguments
present none of them does. -/
theorem C9_usage_guard_witness :
    (∃ m, (agentNewsAnalysis "a.sh".data [] "o".data).usageMessage = some m ∧
      "Usage:".data <+: m ∧
      (agentNewsAnalysis "a.sh".data [] "o".data).exitCode ≠ 0 ∧
      (agentNewsAnalysis "a.sh".data [] "o".data).wroteArtifact = false) ∧
    (∃ m, (agentMarketTrend "t.sh".data [] "o".data).usageMessage = some m ∧
      "Usage:".data <+: m ∧
      (agentMarketTrend "t.sh".data [] "o".data).exitCode ≠ 0 ∧
      (agentMarketTrend "t.sh".data [] "o".data).wroteArtifact = false) ∧
    (∃ m, (reportGenerator "r.sh".data "n".data [] "o".data).usageMessage = some m ∧
      "Usage:".data <+: m ∧
      (reportGenerator "r.sh".data "n".data [] "o".data).exitCode ≠ 0 ∧
      (reportGenerator "r.sh".data "n".data [] "o".data).wroteArtifact = false) ∧
    (reportGenerator "r.sh".data "n".data "t".data "o".data).usageMessage = none :=
  ⟨(C9_usage_guard "a.sh".data [] "o".data [] [] []).1 rfl,
   (C9_usage_guard "t.sh".data "c".data "o".data [] [] []).2.2.1 rfl,
   (C9_usage_guard "r.sh".data "c".data "o".data "a".data "n".data []).2.2.2.2.1 (Or.inr rfl),
   (C9_usage_guard "r.sh".data "c".data "o".data "a".data "n".data "t".data).2.2.2.2.2
     (by decide) (by decide)⟩

/-- Claim C3: when every configured retry attempt of a queued consistency
delivery fails, the delivery sends exactly one failure notice to the chat
(via the `onFailure` callback); if that notice send itself fails, it is only
logged and never retried — one notice attempt either way, and one
failure-notice log exactly when the notice send failed. -/
theorem C3_failure_notice (cfg : RetryConfig) (outcome : Nat → Option Str)
    (noticeOk : Bool) (replyTo : Option Nat)
    (hmax : 1 ≤ cfg.maxAttempts)
    (hall : ∀ m, 1 ≤ m → m ≤ cfg.maxAttempts → outcome m ≠ none) :
    (retryLoop cfg outcome noticeOk replyTo).count QEvent.noticeAttempt = 1 ∧
    (noticeOk = false →
      QEvent.noticeFailedLog ∈ retryLoop cfg outcome noticeOk replyTo ∧
      (retryLoop cfg outcome noticeOk replyTo).count QEvent.noticeFailedLog = 1) ∧
    (noticeOk = true →
      QEvent.noticeFailedLog ∉ retryLoop cfg outcome noticeOk replyTo) := by
  unfold retryLoop
  exact retryFrom_notice_count outcome cfg.baseDelayMs cfg.maxAttempts noticeOk
    cfg.maxAttempts 1 replyTo (by omega) hmax hall

/-- Witness for C3 with the default config, all four attempts failing, and the
failure notice itself failing. -/
theorem C3_failure_notice_witness :
    (retryLoop (getRetryConfig ⟨none⟩) (fun _ => some "boom".data) false none).count
        QEvent.noticeAttempt = 1 ∧
    QEvent.noticeFailedLog ∈
      retryLoop (getRetryConfig ⟨none⟩) (fun _ => some "boom".data) false none :=
  ⟨(C3_failure_notice (getRetryConfig ⟨none⟩) (fun _ => some "boom".data) false none
      (by decide) (fun m _ _ => by simp)).1,
   ((C3_failure_notice (getRetryConfig ⟨none⟩) (fun _ => some "boom".data) false none
      (by decide) (fun m _ _ => by simp)).2.1 rfl).1⟩

/-- Claim C4: a queued consistency delivery makes at most `maxAttempts`
attempts (default `4`, base delay default `1200` ms); between consecutive
attempts `k` and `k + 1` it sleeps `baseDelayMs * k`; and once an attempt
fails with an error containing a reply-gone code (`"230011"`/`"231003"`)
while a reply-to id is still set, every later attempt is sent fresh (without
a reply-to id). -/
theorem C4_retry_policy :
    (getRetryConfig ⟨none⟩ =
      ⟨DEFAULT_RETRY_ATTEMPTS, DEFAULT_RETRY_DELAY_MS, DEFAULT_RETRYABLE_ERRORS⟩ ∧
      DEFAULT_RETRY_ATTEMPTS = 4 ∧ DEFAULT_RETRY_DELAY_MS = 1200) ∧
    (∀ (cfg : RetryConfig) (outcome : Nat → Option Str) (noticeOk : Bool)
        (replyTo : Option Nat),
      (retryLoop cfg outcome noticeOk replyTo).countP (fun e => QEvent.isAttempt e) ≤
        cfg.maxAttempts) ∧
    (∀ (cfg : RetryConfig) (outcome : Nat → Option Str) (noticeOk : Bool)
        (replyTo : Option Nat) (k : Nat) (r1 r2 : Option Nat),
      QEvent.attempt k r1 ∈ retryLoop cfg outcome noticeOk replyTo →
      QEvent.attempt (k + 1) r2 ∈ retryLoop cfg outcome noticeOk replyTo →
      [QEvent.attempt k r1, QEvent.sleep (cfg.baseDelayMs * k),
        QEvent.attempt (k + 1) r2].Sublist (retryLoop cfg outcome noticeOk replyTo)) ∧
    (∀ (cfg : RetryConfig) (outcome : Nat → Option Str) (noticeOk : Bool)
        (replyTo : Option Nat) (k : Nat) (err : Str),
      1 ≤ k → outcome k = some err → shouldFallbackToFreshMessage err = true →
      ∀ (j : Nat) (r' : Option Nat), k < j →
        QEvent.attempt j r' ∈ retryLoop cfg outcome noticeOk replyTo → r' = none) := by
  refine ⟨⟨rfl, rfl, rfl⟩, ?_, ?_, ?_⟩
  · intro cfg outcome noticeOk replyTo
    exact retryFrom_countP_attempt outcome cfg.baseDelayMs cfg.maxAttempts noticeOk
      cfg.maxAttempts 1 replyTo
  · intro cfg outcome noticeOk replyTo k r1 r2 h1 h2
    exact retryFrom_sleep_between outcome cfg.baseDelayMs cfg.maxAttempts noticeOk
      cfg.maxAttempts 1 replyTo k r1 r2 h1 h2
  · intro cfg outcome noticeOk replyTo k err hk hke hfb j r' hj hmem
    exact retryFrom_fresh_after_gone outcome cfg.baseDelayMs cfg.maxAttempts noticeOk
      k err hke hfb cfg.maxAttempts 1 replyTo (Or.inl hk) j r' hj hmem

/-- Witness for C4: with the default config and a first attempt failing on a
retryable network error, attempt 1 (threaded), the 1200 ms sleep, and attempt 2
occur in that order, and the attempt count is within the maximum. -/
theorem C4_retry_policy_witness :
    [QEvent.attempt 1 (some 5),
      QEvent.sleep ((getRetryConfig ⟨none⟩).baseDelayMs * 1),
      QEvent.attempt 2 (some 5)].Sublist
        (retryLoop (getRetryConfig ⟨none⟩)
          (fun n => if n = 1 then some "HTTP 503".data else none) true (some 5)) ∧
    (retryLoop (getRetryConfig ⟨none⟩)
        (fun n => if n = 1 then some "HTTP 503".data else none) true (some 5)).countP
      (fun e => QEvent.isAttempt e) ≤ (getRetryConfig ⟨none⟩).maxAttempts :=
  ⟨C4_retry_policy.2.2.1 (getRetryConfig ⟨none⟩)
      (fun n => if n = 1 then some "HTTP 503".data else none) true (some 5) 1
      (some 5) (some 5) (by decide) (by decide),
   C4_retry_policy.2.1 (getRetryConfig ⟨none⟩)
      (fun n => if n = 1 then some "HTTP 503".data else none) true (some 5)⟩

/-- Claim C5 counterexample: the configured retryable-error set does not govern
retrying.  With the default configuration, an error matching none of the
retryable tokens is still retried: a second attempt occurs, refuting
"errors outside the set are not retried". -/
theorem C5_nonretryable_error_is_retried :
    ((getRetryConfig ⟨none⟩).retryableErrors.any
        (fun code => strIncludes "E_PERMANENT_AUTH_FAILURE".data code)) = false ∧
    QEvent.attempt 2 none ∈
      retryLoop (getRetryConfig ⟨none⟩)
        (fun _ => some "E_PERMANENT_AUTH_FAILURE".data) true none :=
  ⟨by decide, by decide⟩

/-- Claim C5 (amended): the retryable-error set is read from channel
configuration with the documented defaults and override, but the delivery
retry loop never consults it: its trace is independent of the set, and every
failed attempt before exhaustion is retried whatever its error is. -/
theorem C5_retry_config_amended :
    (getRetryConfig ⟨none⟩ =
      ⟨DEFAULT_RETRY_ATTEMPTS, DEFAULT_RETRY_DELAY_MS, DEFAULT_RETRYABLE_ERRORS⟩) ∧
    (∀ (m d : Nat) (l : List Str),
      getRetryConfig ⟨some ⟨some m, some d, some l⟩⟩ = ⟨m, d, l⟩) ∧
    (∀ (cfg : RetryConfig) (l : List Str) (outcome : Nat → Option Str)
        (noticeOk : Bool) (replyTo : Option Nat),
      retryLoop { cfg with retryableErrors := l } outcome noticeOk replyTo =
        retryLoop cfg outcome noticeOk replyTo) ∧
    (∀ (cfg : RetryConfig) (outcome : Nat → Option Str) (noticeOk : Bool)
        (replyTo : Option Nat) (k : Nat) (err : Str) (r1 : Option Nat),
      outcome k = some err → k < cfg.maxAttempts →
      QEvent.attempt k r1 ∈ retryLoop cfg outcome noticeOk replyTo →
      ∃ r2, QEvent.attempt (k + 1) r2 ∈ retryLoop cfg outcome noticeOk replyTo) := by
  refine ⟨rfl, fun m d l => rfl, ?_, ?_⟩
  · intro cfg l outcome noticeOk replyTo
    cases cfg
    rfl
  · intro cfg outcome noticeOk replyTo k err r1 hke hkm hmem
    exact retryFrom_retry_after_failure outcome cfg.baseDelayMs cfg.maxAttempts noticeOk
      cfg.maxAttempts 1 replyTo k err r1 (by omega) hke hkm hmem

/-- Witness for the amended C5: a failed first attempt with an error outside
the retryable set is still followed by a second attempt. -/
theorem C5_retry_config_amended_witness :
    ∃ r2, QEvent.attempt 2 r2 ∈
      retryLoop (getRetryConfig ⟨none⟩)
        (fun _ => some "E_SCHEMA_VALIDATION".data) true none :=
  C5_retry_config_amended.2.2.2 (getRetryConfig ⟨none⟩)
    (fun _ => some "E_SCHEMA_VALIDATION".data) true none 1
    "E_SCHEMA_VALIDATION".data none rfl (by decide) (by decide)

theorem sorted_map_const (A : List QEvent) :
    (A.map (fun _ => (0 : Nat))).Sorted (· ≤ ·) := by
  induction A with
  | nil => simp
  | cons a t ih =>
    rw [List.map_cons]
    refine List.sorted_cons.mpr ⟨?_, ih⟩
    intro b hb
    rcases List.mem_map.mp hb with ⟨_, _, rfl⟩
    exact le_rfl

theorem runDeliveries_tags_sorted (cfg : RetryConfig) :
    ∀ ds : List QueuedDelivery,
      ((runDeliveries cfg ds).map Prod.fst).Sorted (· ≤ ·) := by
  intro ds
  induction ds with
  | nil => simp [runDeliveries]
  | cons d rest ih =>
    rw [runDeliveries, List.map_append, List.map_map, List.map_map]
    show List.Pairwise _ _
    refine List.pairwise_append.mpr ⟨?_, ?_, ?_⟩
    · exact sorted_map_const _
    · have ihB := List.pairwise_map.mp ih
      exact List.Pairwise.map _
        (fun a b hab => by
          show a.1 + 1 ≤ b.1 + 1
          omega) ihB
    · intro a ha b hb
      rcases List.mem_map.mp ha with ⟨e, he, rfl⟩
      exact Nat.zero_le b

theorem filterMap_zero_tag (A : List QEvent) :
    (A.map (fun e => ((0 : Nat), e))).filterMap
      (fun pe => if pe.1 = 0 then some pe.2 else none) = A := by
  induction A with
  | nil => rfl
  | cons a t ih => simp [List.filterMap_cons, ih]

theorem filterMap_succ_tag (A : List QEvent) (n : Nat) :
    (A.map (fun e => ((0 : Nat), e))).filterMap
      (fun pe => if pe.1 = n + 1 then some pe.2 else none) = [] := by
  induction A with
  | nil => rfl
  | cons a t ih => simp [List.filterMap_cons, ih]

theorem filterMap_shift_zero (B : List (Nat × QEvent)) :
    (B.map (fun p => (p.1 + 1, p.2))).filterMap
      (fun pe => if pe.1 = 0 then some pe.2 else none) = [] := by
  induction B with
  | nil => rfl
  | cons p t ih => simp [List.filterMap_cons, ih]

theorem filterMap_shift_succ (B : List (Nat × QEvent)) (n : Nat) :
    (B.map (fun p => (p.1 + 1, p.2))).filterMap
      (fun pe => if pe.1 = n + 1 then some pe.2 else none) =
      B.filterMap (fun pe => if pe.1 = n then some pe.2 else none) := by
  induction B with
  | nil => rfl
  | cons p t ih =>
    simp only [List.map_cons, List.filterMap_cons]
    by_cases h : p.1 = n
    · have h2 : p.1 + 1 = n + 1 := by omega
      simp [h, h2, ih]
    · have h2 : ¬ (p.1 + 1 = n + 1) := by omega
      simp [h, h2, ih]

theorem runDeliveries_filter (cfg : RetryConfig) :
    ∀ (ds : List QueuedDelivery) (i : Nat),
      (runDeliveries cfg ds).filterMap
          (fun pe => if pe.1 = i then some pe.2 else none) =
        (match ds[i]? with
         | some d => retryLoop cfg d.outcome d.noticeOk d.replyTo
         | none => []) := by
  intro ds
  induction ds with
  | nil => intro i; simp [runDeliveries]
  | cons d rest ih =>
    intro i
    rw [runDeliveries, List.filterMap_append]
    cases i with
    | zero =>
      rw [filterMap_zero_tag, filterMap_shift_zero]
      simp
    | succ n =>
      rw [filterMap_succ_tag, filterMap_shift_succ, ih n]
      simp

theorem runDeliveries_ordered (cfg : RetryConfig) (ds : List QueuedDelivery)
    (p q i j : Nat) (e1 e2 : QEvent)
    (hp : (runDeliveries cfg ds)[p]? = some (i, e1))
    (hq : (runDeliveries cfg ds)[q]? = some (j, e2))
    (hij : i < j) : p < q := by
  have hplen : p < (runDeliveries cfg ds).length := by
    by_contra hge
    rw [List.getElem?_eq_none (by omega)] at hp
    cases hp
  have hqlen : q < (runDeliveries cfg ds).length := by
    by_contra hge
    rw [List.getElem?_eq_none (by omega)] at hq
    cases hq
  rw [List.getElem?_eq_getElem hplen] at hp
  rw [List.getElem?_eq_getElem hqlen] at hq
  injection hp with hp
  injection hq with hq
  by_contra hpq
  have hqp : q ≤ p := by omega
  rcases Nat.eq_or_lt_of_le hqp with heq | hlt
  · subst heq
    rw [hq] at hp
    injection hp with hpa hpb
    omega
  · have hs := runDeliveries_tags_sorted cfg ds
    have hrel := List.Sorted.rel_get_of_lt hs
      (a := ⟨q, by simpa using hqlen⟩) (b := ⟨p, by simpa using hplen⟩)
      (Fin.mk_lt_mk.mpr hlt)
    simp only [List.get_eq_getElem, List.getElem_map] at hrel
    rw [hp, hq] at hrel
    simp at hrel
    omega

/-- Claim C2: deliveries for the same `account:chat` key are chained in
enqueue order behind the previously stored promise, and the chained execution
serializes them: the tag sequence of the execution trace is nondecreasing,
each delivery's observed events are exactly its own full retry loop whatever
happened to its predecessors (so a delivery that fails all its attempts still
completes before its successor starts), and every event of an earlier
delivery precedes every event of a later one. -/
theorem C2_queue_order :
    (∀ (queues : Str → List QueuedDelivery) (accountKey chatId : Str)
        (d : QueuedDelivery),
      enqueueFinalText queues accountKey chatId d (queueKey accountKey chatId) =
        queues (queueKey accountKey chatId) ++ [d] ∧
      ∀ k, k ≠ queueKey accountKey chatId →
        enqueueFinalText queues accountKey chatId d k = queues k) ∧
    (∀ (cfg : RetryConfig) (ds : List QueuedDelivery),
      ((runDeliveries cfg ds).map Prod.fst).Sorted (· ≤ ·)) ∧
    (∀ (cfg : RetryConfig) (ds : List QueuedDelivery) (i : Nat),
      (runDeliveries cfg ds).filterMap
          (fun pe => if pe.1 = i then some pe.2 else none) =
        (match ds[i]? with
         | some d => retryLoop cfg d.outcome d.noticeOk d.replyTo
         | none => [])) ∧
    (∀ (cfg : RetryConfig) (ds : List QueuedDelivery) (p q i j : Nat)
        (e1 e2 : QEvent),
      (runDeliveries cfg ds)[p]? = some (i, e1) →
      (runDeliveries cfg ds)[q]? = some (j, e2) →
      i < j → p < q) := by
  refine ⟨?_, runDeliveries_tags_sorted, runDeliveries_filter, ?_⟩
  · intro queues accountKey chatId d
    constructor
    · unfold enqueueFinalText
      rw [if_pos rfl]
    · intro k hk
      unfold enqueueFinalText
      rw [if_neg hk]
  · intro cfg ds p q i j e1 e2 hp hq hij
    exact runDeliveries_ordered cfg ds p q i j e1 e2 hp hq hij

/-- Witness for C2: two deliveries on the same key — the first failing every
attempt, the second succeeding — run in order: position 0 carries an event of
delivery 0 and position 9 one of delivery 1, and the theorem places 0 before 9;
enqueueing onto an empty map stores the singleton chain. -/
theorem C2_queue_order_witness :
    (enqueueFinalText (fun _ => []) "acc".data "chat".data
        ⟨fun _ => some "x".data, none, true⟩ (queueKey "acc".data "chat".data) =
      [⟨fun _ => some "x".data, none, true⟩]) ∧ (0 : Nat) < 9 :=
  ⟨((C2_queue_order.1 (fun _ => []) "acc".data "chat".data
      ⟨fun _ => some "x".data, none, true⟩).1),
   C2_queue_order.2.2.2 (getRetryConfig ⟨none⟩)
     [⟨fun _ => some "x".data, none, true⟩, ⟨fun _ => none, some 3, true⟩]
     0 9 0 1 (QEvent.attempt 1 none) (QEvent.attempt 1 (some 3))
     (by decide) (by decide) (by decide)⟩

/-- Claim C6 counterexample: the reasoning branch of `deliver` breaks out of
its send loop after the first chunk, so when the reasoning message does not
fit in one chunk the entire extracted reasoning block is never delivered.
With a conforming 4-character chunker, the 16-character reasoning message
produces exactly one reasoning send carrying only its first chunk. -/
theorem C6_reasoning_block_truncated :
    (splitFeishuReasoningText "<think>abcdefgh</think>ok".data).reasoningText =
      some ("🧠 思考过程\n>abcdefgh".data) ∧
    (chunkEvery 3 ("🧠 思考过程\n>abcdefgh".data)).flatten =
      "🧠 思考过程\n>abcdefgh".data ∧
    deliver id (chunkEvery 3) true (some 7) "<think>abcdefgh</think>ok".data
        none false =
      [DeliverEvent.send ("🧠 思考".data) (some 7) true,
       DeliverEvent.send (">ok".data) (some 7) true] ∧
    DeliverEvent.send ("🧠 思考过程\n>abcdefgh".data) (some 7) true ∉
      deliver id (chunkEvery 3) true (some 7) "<think>abcdefgh</think>ok".data
        none false ∧
    ("🧠 思考".data : Str) ≠ "🧠 思考过程\n>abcdefgh".data :=
  ⟨by decide, by decide, by decide, by decide, by decide⟩

/-- Claim C6 (amended): whenever the split yields a reasoning part with
non-blank content, `deliver` sends the first chunk of the (converted)
reasoning message — the entire block exactly when it fits in a single chunk —
as its first send, before any answer event, with the @-mention list attached;
the answer then goes through the standard `sendFinalText` path, enqueuing onto
the consistency queue on failure. -/
theorem C6_reasoning_first_chunk (convert : Str → Str) (chunk : Str → List Str)
    (hasMentions : Bool) (replyTo : Option Nat) (text : Str) (failAt : Option Nat)
    (rt c : Str) (cs : List Str)
    (h1 : (splitFeishuReasoningText text).reasoningText = some rt)
    (h2 : jsTrim rt ≠ [])
    (h3 : chunk (convert rt) = c :: cs)
    (h4 : jsTrim text ≠ []) :
    (deliver convert chunk hasMentions replyTo text failAt false =
      DeliverEvent.send c replyTo hasMentions ::
        (match (splitFeishuReasoningText text).answerText with
         | some a =>
           if jsTrim a = [] then [DeliverEvent.warnOnlyReasoning]
           else
             (sendFinalTextTrace convert chunk a replyTo hasMentions failAt).1 ++
               (if (sendFinalTextTrace convert chunk a replyTo hasMentions failAt).2
                then [] else [DeliverEvent.enqueue a])
         | none => [DeliverEvent.warnOnlyReasoning])) ∧
    ((∀ s, (chunk s).flatten = s) → c ++ cs.flatten = convert rt) := by
  constructor
  · have hne : (jsTrim rt).isEmpty = false := by
      cases hrt : jsTrim rt with
      | nil => exact absurd hrt h2
      | cons x xs => rfl
    simp only [deliver, h1, h3, hne, if_neg h4, if_neg h2, Bool.not_false,
      Bool.false_eq_true, if_false, if_true, List.append_nil, List.singleton_append]
  · intro hj
    have := hj (convert rt)
    rw [h3] at this
    simpa using this

/-- Witness for the amended C6 at a concrete input needing four chunks: the
trace begins with the send of the first reasoning chunk. -/
theorem C6_reasoning_first_chunk_witness :
    deliver id (chunkEvery 3) true (some 7) "<think>abcdefgh</think>ok".data
        none false =
      DeliverEvent.send ("🧠 思考".data) (some 7) true ::
        (match (splitFeishuReasoningText "<think>abcdefgh</think>ok".data).answerText with
         | some a =>
           if jsTrim a = [] then [DeliverEvent.warnOnlyReasoning]
           else
             (sendFinalTextTrace id (chunkEvery 3) a (some 7) true none).1 ++
               (if (sendFinalTextTrace id (chunkEvery 3) a (some 7) true none).2
                then [] else [DeliverEvent.enqueue a])
         | none => [DeliverEvent.warnOnlyReasoning]) :=
  (C6_reasoning_first_chunk id (chunkEvery 3) true (some 7)
     "<think>abcdefgh</think>ok".data none ("🧠 思考过程\n>abcdefgh".data)
     ("🧠 思考".data) ["过程\n>".data, "abcd".data, "efgh".data]
     (by decide) (by decide) (by decide) (by decide)).1

end OC
